import Mathlib

/-!
Shallow embedding of the CAN fuzzy-dataset generator (`src/main.go`) and
proofs about it.

The Go program generates `TotalRecords` CAN frames, each labeled "R"
(normal) or "T" (injected), enforcing exact global counts for each class,
and writes them as CSV rows.  Randomness (`math/rand`) is modelled by an
oracle: each call to `generateCANData` receives a `Draw` record holding the
values the random source would have produced for that call; machine bytes
are `Nat` with explicit `% 256` where the Go code casts to `byte`.
-/

namespace CanFuzzy

/-- Constants for data generation (src/main.go lines 15-20). -/
def TotalRecords : Nat := 3838860

/-- Number of normal messages (src/main.go line 17). -/
def NormalCount : Nat := 3347013

/-- Number of injected messages (src/main.go line 18). -/
def InjectedCount : Nat := 491847

/-- DLC fixed to 8 bytes (src/main.go line 19). -/
def DataLength : Nat := 8

/-- The two global counters `var normalMessages, injectedMessages int`
(src/main.go line 23), threaded explicitly as state. -/
structure GenState where
  normalMessages : Nat
  injectedMessages : Nat
  deriving Repr, DecidableEq

/-- Go zero-initializes package-level `int` variables, so a run starts with
both counters at 0. -/
def initState : GenState := ⟨0, 0⟩

/-- Oracle for the random values a single `generateCANData` call can
consume from `math/rand`:
* `coin` - the event `rand.Float64() < 0.5` in the branch condition;
* `injId` - `rand.Intn(0x300-0x206)`, a value in `[0, 0x300-0x206)`;
* `injData i` - `rand.Intn(256)` for payload byte `i` of an injected frame;
* `keyIdx` - `rand.Intn(len(dbcKeys))` with `len(dbcKeys) = 8`;
* `toggle` - the event `rand.Float64() < 0.5` inside `toggleOnOff`;
* `fluctA n`, `fluctB n` - the first and second `rand.Intn(n+1)` draw made
  by a `fluctuate` call with span `n = max - min` (the 0x205 entry calls
  `fluctuate` twice, with independent draws). -/
structure Draw where
  coin : Bool
  injId : Fin (0x300 - 0x206)
  injData : Fin 8 → Fin 256
  keyIdx : Fin 8
  toggle : Bool
  fluctA : (n : Nat) → Fin (n + 1)
  fluctB : (n : Nat) → Fin (n + 1)

/-- Helper to generate random fluctuations within a range
(src/main.go lines 40-42): `min + rand.Intn(max-min+1)`, with the
`rand.Intn` result passed in as `r`. -/
def fluctuate (min max : Nat) (r : Fin (max - min + 1)) : Nat :=
  min + r.val

/-- Helper to randomly toggle on/off (src/main.go lines 45-50): 1 when
`rand.Float64() < 0.5`, else 0. -/
def toggleOnOff (b : Bool) : Nat :=
  if b then 1 else 0

/-- Predefined DBC-like data for normal CAN messages
(src/main.go lines 26-37), as an association list mirroring the map
literal; each payload function consumes the current call's draws.  The Go
`byte(...)` casts are the explicit `% 256`, `x >>> 8` is `byte(x >> 8)`
and `x &&& 0xFF` is `x & 0xFF`. -/
def DBC : List (Nat × (Draw → List Nat)) :=
  [ (0x100, fun d => [toggleOnOff d.toggle % 256, 0x00, 0x00, 0x00, 0x00, 0x00, 0x00, 0x00]),
    (0x101, fun d => [toggleOnOff d.toggle % 256, 0x00, 0x00, 0x00, 0x00, 0x00, 0x00, 0x00]),
    (0x200, fun d => [fluctuate 80 100 (d.fluctA 20) % 256, 0x00, 0x00, 0x00, 0x00, 0x00, 0x00, 0x00]),
    (0x201, fun d => [fluctuate 60 90 (d.fluctA 30) % 256, 0x00, 0x00, 0x00, 0x00, 0x00, 0x00, 0x00]),
    (0x202, fun d => [fluctuate 90 100 (d.fluctA 10) % 256, 0x00, 0x00, 0x00, 0x00, 0x00, 0x00, 0x00]),
    (0x203, fun d => [fluctuate 60 80 (d.fluctA 20) % 256, 0x00, 0x00, 0x00, 0x00, 0x00, 0x00, 0x00]),
    (0x204, fun d => [fluctuate 40 60 (d.fluctA 20) % 256, 0x00, 0x00, 0x00, 0x00, 0x00, 0x00, 0x00]),
    (0x205, fun d => [(fluctuate 2500 3000 (d.fluctA 500) >>> 8) % 256,
                      (fluctuate 2500 3000 (d.fluctB 500) &&& 0xFF) % 256,
                      0x00, 0x00, 0x00, 0x00, 0x00, 0x00]) ]

/-- The key list built by `for k := range DBC` inside `generateCANData`
(src/main.go lines 68-71); Go map iteration order is unspecified, we fix
the literal's order (all properties proved below are order-independent). -/
def dbcKeys : List Nat := DBC.map Prod.fst

/-- One generated CAN record: the `(uint32, [8]byte, string)` returned by
`generateCANData`. -/
structure CANRecord where
  canID : Nat
  data : List Nat
  flag : String
  deriving Repr, DecidableEq

/-- Function to generate CAN data with exact counts for normal and injected
messages (src/main.go lines 53-79).  The Go zero values of the locals
(`canID = 0`, `data = [8]byte{}`, `flag = ""`) are what the fallback path
returns. -/
def generateCANData (s : GenState) (d : Draw) : GenState × CANRecord :=
  if s.injectedMessages < InjectedCount ∧
      (s.normalMessages ≥ NormalCount ∨ d.coin = true) then
    ({ s with injectedMessages := s.injectedMessages + 1 },
     { canID := d.injId.val + 0x206,
       data := List.ofFn (fun i : Fin 8 => (d.injData i).val),
       flag := "T" })
  else if s.normalMessages < NormalCount then
    let canID := dbcKeys.getD d.keyIdx.val 0
    let data := ((DBC.lookup canID).getD (fun _ => List.replicate 8 0)) d
    ({ s with normalMessages := s.normalMessages + 1 },
     { canID := canID, data := data, flag := "R" })
  else
    (s, { canID := 0, data := List.replicate 8 0, flag := "" })

/-- A run of consecutive `generateCANData` calls, one per `Draw` of the
list, returning the final counter state and the emitted records in order
(the loop body of `generateDataset`, src/main.go lines 105-126, restricted
to record generation). -/
def runGen (s : GenState) (ds : List Draw) : GenState × List CANRecord :=
  match ds with
  | [] => (s, [])
  | d :: ds =>
    let (s', r) := generateCANData s d
    let (s'', rs) := runGen s' ds
    (s'', r :: rs)

/-- A fixed concrete draw used to instantiate universally quantified
theorems at a specific input. -/
def sampleDraw : Draw where
  coin := true
  injId := ⟨0, by decide⟩
  injData := fun _ => ⟨0, by decide⟩
  keyIdx := ⟨0, by decide⟩
  toggle := false
  fluctA := fun _ => ⟨0, Nat.succ_pos _⟩
  fluctB := fun _ => ⟨0, Nat.succ_pos _⟩

/-- Like `sampleDraw` but with the interleaving coin on the normal side. -/
def sampleDrawR : Draw :=
  { sampleDraw with coin := false }

/-- Unfolding `runGen` on the empty list. -/
lemma runGen_nil (s : GenState) : runGen s [] = (s, []) := rfl

/-- Unfolding `runGen` on a cons. -/
lemma runGen_cons (s : GenState) (d : Draw) (ds : List Draw) :
    runGen s (d :: ds) =
      ((runGen (generateCANData s d).1 ds).1,
       (generateCANData s d).2 :: (runGen (generateCANData s d).1 ds).2) := rfl

/-- `runGen` over an appended draw list splits into two runs. -/
lemma runGen_append (s : GenState) (as bs : List Draw) :
    runGen s (as ++ bs) =
      ((runGen (runGen s as).1 bs).1,
       (runGen s as).2 ++ (runGen (runGen s as).1 bs).2) := by
  induction as generalizing s with
  | nil => simp [runGen_nil]
  | cons a as ih => simp [runGen_cons, ih]

/-- Exhaustive classification of a single `generateCANData` call from a
state respecting the counter bounds: it either emits a "T" record and
bumps only the injected counter, emits an "R" record and bumps only the
normal counter, or (only when both counters already sit at their targets)
emits the zero record with empty flag and leaves the state unchanged. -/
lemma generateCANData_cases (s : GenState) (d : Draw)
    (hn : s.normalMessages ≤ NormalCount)
    (hi : s.injectedMessages ≤ InjectedCount) :
    ((generateCANData s d).2.flag = "T" ∧
      (generateCANData s d).1.injectedMessages = s.injectedMessages + 1 ∧
      (generateCANData s d).1.normalMessages = s.normalMessages ∧
      s.injectedMessages < InjectedCount) ∨
    ((generateCANData s d).2.flag = "R" ∧
      (generateCANData s d).1.normalMessages = s.normalMessages + 1 ∧
      (generateCANData s d).1.injectedMessages = s.injectedMessages ∧
      s.normalMessages < NormalCount) ∨
    ((generateCANData s d).2.flag = "" ∧
      (generateCANData s d).1 = s ∧
      s.normalMessages = NormalCount ∧ s.injectedMessages = InjectedCount) := by
  by_cases h1 : s.injectedMessages < InjectedCount ∧
      (s.normalMessages ≥ NormalCount ∨ d.coin = true)
  · left
    simp only [generateCANData, if_pos h1]
    exact ⟨by trivial, by trivial, by trivial, h1.1⟩
  · by_cases h2 : s.normalMessages < NormalCount
    · right; left
      simp only [generateCANData, if_neg h1, if_pos h2]
      exact ⟨by trivial, by trivial, by trivial, h2⟩
    · right; right
      simp only [generateCANData, if_neg h1, if_neg h2]
      refine ⟨by trivial, by trivial, le_antisymm hn (le_of_not_lt h2), ?_⟩
      by_contra hne
      exact h1 ⟨lt_of_le_of_ne hi hne, Or.inl (le_of_not_lt h2)⟩

/-- The main run invariant: starting from any in-bounds state, the
counters stay in bounds and never decrease, the number of "T" (resp. "R")
records equals the growth of the injected (resp. normal) counter, the
counter sum grows by one per call until it saturates at
`NormalCount + InjectedCount`, and while the run length fits under that
sum every record is labeled "T" or "R". -/
lemma runGen_spec (ds : List Draw) : ∀ s : GenState,
    s.normalMessages ≤ NormalCount → s.injectedMessages ≤ InjectedCount →
    ((runGen s ds).1.normalMessages ≤ NormalCount ∧
      (runGen s ds).1.injectedMessages ≤ InjectedCount) ∧
    (s.normalMessages ≤ (runGen s ds).1.normalMessages ∧
      s.injectedMessages ≤ (runGen s ds).1.injectedMessages) ∧
    ((runGen s ds).2.map CANRecord.flag).count "T" =
      (runGen s ds).1.injectedMessages - s.injectedMessages ∧
    ((runGen s ds).2.map CANRecord.flag).count "R" =
      (runGen s ds).1.normalMessages - s.normalMessages ∧
    (s.normalMessages + s.injectedMessages + ds.length ≤
        NormalCount + InjectedCount →
      (runGen s ds).1.normalMessages + (runGen s ds).1.injectedMessages =
        s.normalMessages + s.injectedMessages + ds.length) ∧
    (s.normalMessages + s.injectedMessages + ds.length ≤
        NormalCount + InjectedCount →
      ∀ r ∈ (runGen s ds).2, r.flag = "T" ∨ r.flag = "R") := by
  induction ds with
  | nil =>
    intro s hn hi
    simp only [runGen_nil, List.map_nil, List.count_nil, List.length_nil]
    refine ⟨⟨hn, hi⟩, ⟨le_refl _, le_refl _⟩, by omega, by omega,
      fun _ => by omega, ?_⟩
    intro _ r hr
    simp at hr
  | cons d ds ih =>
    intro s hn hi
    obtain ⟨hfT, hi1, hn1, _⟩ | ⟨hfR, hn1, hi1, _⟩ | ⟨hfE, hs1, hnN, hiI⟩ :=
      generateCANData_cases s d hn hi
    · have hb1 : (generateCANData s d).1.normalMessages ≤ NormalCount := by omega
      have hb2 : (generateCANData s d).1.injectedMessages ≤ InjectedCount := by
        omega
      obtain ⟨⟨ihn, ihi⟩, ⟨ihmn, ihmi⟩, ihcT, ihcR, ihsum, ihflags⟩ :=
        ih (generateCANData s d).1 hb1 hb2
      rw [runGen_cons]
      simp only [List.map_cons, List.count_cons, List.length_cons, hfT]
      refine ⟨⟨ihn, ihi⟩, ⟨by omega, by omega⟩, ?_, ?_,
        fun hle => by have := ihsum (by omega); omega, ?_⟩
      · simp
        omega
      · simp
        omega
      · intro hle r hr
        rcases List.mem_cons.mp hr with hr | hr
        · left; rw [hr]; exact hfT
        · exact ihflags (by omega) r hr
    · have hb1 : (generateCANData s d).1.normalMessages ≤ NormalCount := by omega
      have hb2 : (generateCANData s d).1.injectedMessages ≤ InjectedCount := by
        omega
      obtain ⟨⟨ihn, ihi⟩, ⟨ihmn, ihmi⟩, ihcT, ihcR, ihsum, ihflags⟩ :=
        ih (generateCANData s d).1 hb1 hb2
      rw [runGen_cons]
      simp only [List.map_cons, List.count_cons, List.length_cons, hfR]
      refine ⟨⟨ihn, ihi⟩, ⟨by omega, by omega⟩, ?_, ?_,
        fun hle => by have := ihsum (by omega); omega, ?_⟩
      · simp
        omega
      · simp
        omega
      · intro hle r hr
        rcases List.mem_cons.mp hr with hr | hr
        · right; rw [hr]; exact hfR
        · exact ihflags (by omega) r hr
    · have hb1 : (generateCANData s d).1.normalMessages ≤ NormalCount := by
        rw [hs1]; exact hn
      have hb2 : (generateCANData s d).1.injectedMessages ≤ InjectedCount := by
        rw [hs1]; exact hi
      obtain ⟨⟨ihn, ihi⟩, ⟨ihmn, ihmi⟩, ihcT, ihcR, ihsum, ihflags⟩ :=
        ih (generateCANData s d).1 hb1 hb2
      rw [runGen_cons]
      rw [hs1] at ihn ihi ihmn ihmi ihcT ihcR ihsum ihflags ⊢
      simp only [List.map_cons, List.count_cons, List.length_cons, hfE]
      refine ⟨⟨ihn, ihi⟩, ⟨ihmn, ihmi⟩, ?_, ?_, fun hle => by omega, ?_⟩
      · simp
        omega
      · simp
        omega
      · intro hle
        omega

/-- The counter state after the first `k` calls of a run driven by the
draw list `ds`, starting from the zero-initialized globals. -/
def stateAfter (ds : List Draw) (k : Nat) : GenState :=
  (runGen initState (ds.take k)).1

/-- Advancing `stateAfter` by one call applies `generateCANData` once. -/
lemma stateAfter_succ (ds : List Draw) (k : Nat) (hk : k < ds.length) :
    stateAfter ds (k + 1) =
      (generateCANData (stateAfter ds k) (ds.get ⟨k, hk⟩)).1 := by
  unfold stateAfter
  rw [List.take_succ, List.getElem?_eq_getElem hk]
  rw [runGen_append]
  simp [runGen_cons, runGen_nil, List.get_eq_getElem]

/-- The counters are within their targets after any number of calls. -/
lemma stateAfter_bounds (ds : List Draw) (k : Nat) :
    (stateAfter ds k).normalMessages ≤ NormalCount ∧
      (stateAfter ds k).injectedMessages ≤ InjectedCount :=
  (runGen_spec (ds.take k) initState (Nat.zero_le _) (Nat.zero_le _)).1

/-- C1: For every completed run of exactly `TotalRecords` (3838860) calls
to `generateCANData` starting with both counters at zero, exactly
`InjectedCount` (491847) of the emitted records carry label "T" and
exactly `NormalCount` (3347013) carry label "R", and
`NormalCount + InjectedCount` equals `TotalRecords`. -/
theorem c1_exact_counts (ds : List Draw) (h : ds.length = TotalRecords) :
    ((runGen initState ds).2.map CANRecord.flag).count "T" = InjectedCount ∧
    ((runGen initState ds).2.map CANRecord.flag).count "R" = NormalCount ∧
    NormalCount + InjectedCount = TotalRecords := by
  have htot : NormalCount + InjectedCount = TotalRecords := by
    simp [NormalCount, InjectedCount, TotalRecords]
  obtain ⟨⟨hbn, hbi⟩, _, hcT, hcR, hsum, _⟩ :=
    runGen_spec ds initState (Nat.zero_le _) (Nat.zero_le _)
  have h' : ds.length = NormalCount + InjectedCount := by rw [h, htot]
  have hz1 : initState.normalMessages = 0 := rfl
  have hz2 : initState.injectedMessages = 0 := rfl
  have hs := hsum (by omega)
  refine ⟨?_, ?_, htot⟩ <;> omega

/-- Witness for C1 at the concrete run `List.replicate TotalRecords
sampleDraw`. -/
theorem c1_exact_counts_witness :
    ((runGen initState (List.replicate TotalRecords sampleDraw)).2.map
        CANRecord.flag).count "T" = InjectedCount ∧
    ((runGen initState (List.replicate TotalRecords sampleDraw)).2.map
        CANRecord.flag).count "R" = NormalCount ∧
    NormalCount + InjectedCount = TotalRecords :=
  c1_exact_counts (List.replicate TotalRecords sampleDraw) (by simp)

/-- C2: After every call to `generateCANData` in any run, the counter
invariant holds: `normalMessages` never exceeds `NormalCount` and
`injectedMessages` never exceeds `InjectedCount`; both counters start at
zero, each call that emits a record increments exactly one counter by
exactly one, and neither counter is ever decremented or reset during the
run. -/
theorem c2_counter_invariant (ds : List Draw) (k : Nat) (hk : k < ds.length) :
    initState.normalMessages = 0 ∧ initState.injectedMessages = 0 ∧
    (stateAfter ds (k + 1)).normalMessages ≤ NormalCount ∧
    (stateAfter ds (k + 1)).injectedMessages ≤ InjectedCount ∧
    stateAfter ds (k + 1) =
      (generateCANData (stateAfter ds k) (ds.get ⟨k, hk⟩)).1 ∧
    (((generateCANData (stateAfter ds k) (ds.get ⟨k, hk⟩)).2.flag = "T" ∧
        (stateAfter ds (k + 1)).injectedMessages =
          (stateAfter ds k).injectedMessages + 1 ∧
        (stateAfter ds (k + 1)).normalMessages =
          (stateAfter ds k).normalMessages) ∨
      ((generateCANData (stateAfter ds k) (ds.get ⟨k, hk⟩)).2.flag = "R" ∧
        (stateAfter ds (k + 1)).normalMessages =
          (stateAfter ds k).normalMessages + 1 ∧
        (stateAfter ds (k + 1)).injectedMessages =
          (stateAfter ds k).injectedMessages) ∨
      ((generateCANData (stateAfter ds k) (ds.get ⟨k, hk⟩)).2.flag = "" ∧
        stateAfter ds (k + 1) = stateAfter ds k)) ∧
    (stateAfter ds k).normalMessages ≤ (stateAfter ds (k + 1)).normalMessages ∧
    (stateAfter ds k).injectedMessages ≤
      (stateAfter ds (k + 1)).injectedMessages := by
  obtain ⟨hbn, hbi⟩ := stateAfter_bounds ds k
  have hstep := stateAfter_succ ds k hk
  obtain ⟨hfT, hi1, hn1, _⟩ | ⟨hfR, hn1, hi1, _⟩ | ⟨hfE, hs1, _, _⟩ :=
    generateCANData_cases (stateAfter ds k) (ds.get ⟨k, hk⟩) hbn hbi
  · rw [hstep]
    exact ⟨rfl, rfl, by omega, by omega, rfl,
      Or.inl ⟨hfT, by omega, by omega⟩, by omega, by omega⟩
  · rw [hstep]
    exact ⟨rfl, rfl, by omega, by omega, rfl,
      Or.inr (Or.inl ⟨hfR, by omega, by omega⟩), by omega, by omega⟩
  · rw [hstep]
    refine ⟨rfl, rfl, ?_, ?_, rfl, Or.inr (Or.inr ⟨hfE, hs1⟩), ?_, ?_⟩ <;>
      rw [hs1] <;> omega

/-- Witness for C2 at the one-call run `[sampleDraw]`, step 0. -/
theorem c2_counter_invariant_witness :
    initState.normalMessages = 0 ∧ initState.injectedMessages = 0 ∧
    (stateAfter [sampleDraw] (0 + 1)).normalMessages ≤ NormalCount ∧
    (stateAfter [sampleDraw] (0 + 1)).injectedMessages ≤ InjectedCount ∧
    stateAfter [sampleDraw] (0 + 1) =
      (generateCANData (stateAfter [sampleDraw] 0)
        ([sampleDraw].get ⟨0, by decide⟩)).1 ∧
    (((generateCANData (stateAfter [sampleDraw] 0)
          ([sampleDraw].get ⟨0, by decide⟩)).2.flag = "T" ∧
        (stateAfter [sampleDraw] (0 + 1)).injectedMessages =
          (stateAfter [sampleDraw] 0).injectedMessages + 1 ∧
        (stateAfter [sampleDraw] (0 + 1)).normalMessages =
          (stateAfter [sampleDraw] 0).normalMessages) ∨
      ((generateCANData (stateAfter [sampleDraw] 0)
          ([sampleDraw].get ⟨0, by decide⟩)).2.flag = "R" ∧
        (stateAfter [sampleDraw] (0 + 1)).normalMessages =
          (stateAfter [sampleDraw] 0).normalMessages + 1 ∧
        (stateAfter [sampleDraw] (0 + 1)).injectedMessages =
          (stateAfter [sampleDraw] 0).injectedMessages) ∨
      ((generateCANData (stateAfter [sampleDraw] 0)
          ([sampleDraw].get ⟨0, by decide⟩)).2.flag = "" ∧
        stateAfter [sampleDraw] (0 + 1) = stateAfter [sampleDraw] 0)) ∧
    (stateAfter [sampleDraw] 0).normalMessages ≤
      (stateAfter [sampleDraw] (0 + 1)).normalMessages ∧
    (stateAfter [sampleDraw] 0).injectedMessages ≤
      (stateAfter [sampleDraw] (0 + 1)).injectedMessages :=
  c2_counter_invariant [sampleDraw] 0 (by decide)

/-- C3: Each call to `generateCANData` emits an Injected record ("T") if
and only if `injectedMessages < InjectedCount` and (`normalMessages ≥
NormalCount` or the coin flip favors injection); otherwise it emits a
Normal record ("R") if and only if `normalMessages < NormalCount`. -/
theorem c3_decision_rule (s : GenState) (d : Draw) :
    ((generateCANData s d).2.flag = "T" ↔
      (s.injectedMessages < InjectedCount ∧
        (s.normalMessages ≥ NormalCount ∨ d.coin = true))) ∧
    (¬ (s.injectedMessages < InjectedCount ∧
        (s.normalMessages ≥ NormalCount ∨ d.coin = true)) →
      ((generateCANData s d).2.flag = "R" ↔
        s.normalMessages < NormalCount)) := by
  by_cases h1 : s.injectedMessages < InjectedCount ∧
      (s.normalMessages ≥ NormalCount ∨ d.coin = true)
  · refine ⟨?_, fun h => absurd h1 h⟩
    simp only [generateCANData, if_pos h1]
    simp [h1]
  · by_cases h2 : s.normalMessages < NormalCount
    · refine ⟨?_, fun _ => ?_⟩ <;>
        simp only [generateCANData, if_neg h1, if_pos h2] <;>
        simp [h1, h2]
    · refine ⟨?_, fun _ => ?_⟩ <;>
        simp only [generateCANData, if_neg h1, if_neg h2] <;>
        simp [h1, h2]

/-- Witness for C3 at the zero state and `sampleDraw`. -/
theorem c3_decision_rule_witness :
    ((generateCANData initState sampleDraw).2.flag = "T" ↔
      (initState.injectedMessages < InjectedCount ∧
        (initState.normalMessages ≥ NormalCount ∨ sampleDraw.coin = true))) ∧
    (¬ (initState.injectedMessages < InjectedCount ∧
        (initState.normalMessages ≥ NormalCount ∨ sampleDraw.coin = true)) →
      ((generateCANData initState sampleDraw).2.flag = "R" ↔
        initState.normalMessages < NormalCount)) :=
  c3_decision_rule initState sampleDraw

/-- C4: In every run of exactly `TotalRecords` calls starting from zero
counters, the fallback branch is never reached: every emitted record is
labeled "T" or "R", because `NormalCount + InjectedCount = TotalRecords`
exactly. -/
theorem c4_no_fallback (ds : List Draw) (h : ds.length = TotalRecords) :
    (∀ r ∈ (runGen initState ds).2, r.flag = "T" ∨ r.flag = "R") ∧
    NormalCount + InjectedCount = TotalRecords := by
  have htot : NormalCount + InjectedCount = TotalRecords := by
    simp [NormalCount, InjectedCount, TotalRecords]
  refine ⟨?_, htot⟩
  refine (runGen_spec ds initState (Nat.zero_le _) (Nat.zero_le _)).2.2.2.2.2 ?_
  have hz1 : initState.normalMessages = 0 := rfl
  have hz2 : initState.injectedMessages = 0 := rfl
  omega

/-- Witness for C4 at the concrete run `List.replicate TotalRecords
sampleDrawR`. -/
theorem c4_no_fallback_witness :
    (∀ r ∈ (runGen initState (List.replicate TotalRecords sampleDrawR)).2,
      r.flag = "T" ∨ r.flag = "R") ∧
    NormalCount + InjectedCount = TotalRecords :=
  c4_no_fallback (List.replicate TotalRecords sampleDrawR) (by simp)

/-- A draw that steers a call into the normal branch, picks the two-byte
identifier 0x205, and makes its two independent `fluctuate` draws disagree
(first draw 2500, second draw 2560). -/
def sampleDraw205 : Draw :=
  { sampleDraw with
    coin := false
    keyIdx := ⟨7, by decide⟩
    fluctB := fun n => if h : 60 ≤ n then ⟨60, by omega⟩ else ⟨0, Nat.succ_pos _⟩ }

/-- In the injected branch, the identifier and payload are built from the
injected draws. -/
lemma generateCANData_T (s : GenState) (d : Draw)
    (h : (generateCANData s d).2.flag = "T") :
    (generateCANData s d).2.canID = d.injId.val + 0x206 ∧
    (generateCANData s d).2.data =
      List.ofFn (fun i : Fin 8 => (d.injData i).val) := by
  by_cases h1 : s.injectedMessages < InjectedCount ∧
      (s.normalMessages ≥ NormalCount ∨ d.coin = true)
  · simp only [generateCANData, if_pos h1]
    exact ⟨by trivial, by trivial⟩
  · by_cases h2 : s.normalMessages < NormalCount
    · simp only [generateCANData, if_neg h1, if_pos h2] at h
      exact absurd h (by decide)
    · simp only [generateCANData, if_neg h1, if_neg h2] at h
      exact absurd h (by decide)

/-- In the normal branch, the identifier is looked up from `dbcKeys` and
the payload from the `DBC` table. -/
lemma generateCANData_R (s : GenState) (d : Draw)
    (h : (generateCANData s d).2.flag = "R") :
    (generateCANData s d).2.canID = dbcKeys.getD d.keyIdx.val 0 ∧
    (generateCANData s d).2.data =
      ((DBC.lookup (dbcKeys.getD d.keyIdx.val 0)).getD
        (fun _ => List.replicate 8 0)) d := by
  by_cases h1 : s.injectedMessages < InjectedCount ∧
      (s.normalMessages ≥ NormalCount ∨ d.coin = true)
  · simp only [generateCANData, if_pos h1] at h
    exact absurd h (by decide)
  · by_cases h2 : s.normalMessages < NormalCount
    · simp only [generateCANData, if_neg h1, if_pos h2]
      exact ⟨by trivial, by trivial⟩
    · simp only [generateCANData, if_neg h1, if_neg h2] at h
      exact absurd h (by decide)

/-- Every key of the signal table is at most 0x205. -/
lemma dbcKeys_le (x : Nat) (hx : x ∈ dbcKeys) : x ≤ 0x205 := by
  simp only [dbcKeys, DBC, List.map_cons, List.map_nil, List.mem_cons,
    List.not_mem_nil, or_false] at hx
  rcases hx with h|h|h|h|h|h|h|h <;> omega

/-- C5: Every record emitted with label "T" has an identifier in the
out-of-table range `[0x206, 0x2FF]`, which is disjoint from the DBC key
set: the identifier is not a key of the DBC map. -/
theorem c5_injected_id_outside_table (s : GenState) (d : Draw)
    (h : (generateCANData s d).2.flag = "T") :
    0x206 ≤ (generateCANData s d).2.canID ∧
    (generateCANData s d).2.canID ≤ 0x2FF ∧
    (generateCANData s d).2.canID ∉ dbcKeys := by
  obtain ⟨hid, -⟩ := generateCANData_T s d h
  have hb := d.injId.isLt
  rw [hid]
  refine ⟨by omega, by omega, fun hmem => ?_⟩
  have := dbcKeys_le _ hmem
  omega

/-- Witness for C5 at the zero state and a coin favoring injection. -/
theorem c5_injected_id_outside_table_witness :
    0x206 ≤ (generateCANData initState sampleDraw).2.canID ∧
    (generateCANData initState sampleDraw).2.canID ≤ 0x2FF ∧
    (generateCANData initState sampleDraw).2.canID ∉ dbcKeys :=
  c5_injected_id_outside_table initState sampleDraw (by decide)

/-- Shape of the normal payload for every possible key choice: the
identifier is a table key, the payload has 8 bytes, bytes 1-7 are zero for
every identifier except 0x205, and bytes 2-7 are zero always. -/
lemma dbc_payload_spec (d : Draw) (v : Nat) (hv : v < 8) :
    dbcKeys.getD v 0 ∈ dbcKeys ∧
    (((DBC.lookup (dbcKeys.getD v 0)).getD
        (fun _ => List.replicate 8 0)) d).length = 8 ∧
    (dbcKeys.getD v 0 ≠ 0x205 →
      (((DBC.lookup (dbcKeys.getD v 0)).getD
          (fun _ => List.replicate 8 0)) d).drop 1 = List.replicate 7 0) ∧
    (((DBC.lookup (dbcKeys.getD v 0)).getD
        (fun _ => List.replicate 8 0)) d).drop 2 = List.replicate 6 0 := by
  interval_cases v <;>
    simp [dbcKeys, DBC, List.lookup, List.replicate]

/-- C6: Every record emitted with label "R" has an identifier in the DBC
key set, and its payload bytes after the meaningful leading one or two are
all zero (bytes 1-7 zero for single-byte identifiers, bytes 2-7 zero for
the two-byte identifier 0x205). -/
theorem c6_normal_id_and_trailing_zeros (s : GenState) (d : Draw)
    (h : (generateCANData s d).2.flag = "R") :
    (generateCANData s d).2.canID ∈ dbcKeys ∧
    (generateCANData s d).2.data.length = 8 ∧
    ((generateCANData s d).2.canID ≠ 0x205 →
      (generateCANData s d).2.data.drop 1 = List.replicate 7 0) ∧
    (generateCANData s d).2.data.drop 2 = List.replicate 6 0 := by
  obtain ⟨hid, hdata⟩ := generateCANData_R s d h
  rw [hid, hdata]
  exact dbc_payload_spec d d.keyIdx.val d.keyIdx.isLt

/-- Witness for C6 at the zero state and a coin favoring normal. -/
theorem c6_normal_id_and_trailing_zeros_witness :
    (generateCANData initState sampleDrawR).2.canID ∈ dbcKeys ∧
    (generateCANData initState sampleDrawR).2.data.length = 8 ∧
    ((generateCANData initState sampleDrawR).2.canID ≠ 0x205 →
      (generateCANData initState sampleDrawR).2.data.drop 1 =
        List.replicate 7 0) ∧
    (generateCANData initState sampleDrawR).2.data.drop 2 =
      List.replicate 6 0 :=
  c6_normal_id_and_trailing_zeros initState sampleDrawR (by decide)

/-- A single-byte `fluctuate` result cast to byte stays within the
configured closed range when `max < 256`. -/
lemma fluctuate_byte_mem (min max : Nat) (hmax : max < 256) (hle : min ≤ max)
    (r : Fin (max - min + 1)) :
    min ≤ fluctuate min max r % 256 ∧ fluctuate min max r % 256 ≤ max := by
  have hr := r.isLt
  have h1 : fluctuate min max r ≤ max := by unfold fluctuate; omega
  have h2 : min ≤ fluctuate min max r := by unfold fluctuate; omega
  rw [Nat.mod_eq_of_lt (by omega)]
  exact ⟨h2, h1⟩

/-- The high byte produced for identifier 0x205 lies in `{9, 10, 11}`. -/
lemma fluct205_high (r : Fin 501) :
    9 ≤ (fluctuate 2500 3000 r >>> 8) % 256 ∧
    (fluctuate 2500 3000 r >>> 8) % 256 ≤ 11 := by
  have hr := r.isLt
  unfold fluctuate
  rw [Nat.shiftRight_eq_div_pow]
  have h28 : (2:Nat) ^ 8 = 256 := by norm_num
  rw [h28]
  have h1 : 9 ≤ (2500 + r.val) / 256 := by omega
  have h2 : (2500 + r.val) / 256 ≤ 11 := by omega
  rw [Nat.mod_eq_of_lt (by omega)]
  exact ⟨h1, h2⟩

/-- The low byte produced for identifier 0x205 is at most 255. -/
lemma fluct205_low (r : Fin 501) :
    (fluctuate 2500 3000 r &&& 0xFF) % 256 ≤ 255 := by
  have h := Nat.and_le_right (n := fluctuate 2500 3000 r) (m := 0xFF)
  omega

/-- C7 counterexample: a concrete normal record for identifier 0x205 whose
two independently drawn `fluctuate` values (2500 for the high half, 2560
for the low half) reconstruct to `9 * 256 + 0 = 2304`, which is outside
the configured range `[2500, 3000]`. -/
theorem c7_range_counterexample :
    (generateCANData initState sampleDraw205).2.flag = "R" ∧
    (generateCANData initState sampleDraw205).2.canID = 0x205 ∧
    ¬ (2500 ≤ (generateCANData initState sampleDraw205).2.data.getD 0 0 * 256 +
          (generateCANData initState sampleDraw205).2.data.getD 1 0 ∧
        (generateCANData initState sampleDraw205).2.data.getD 0 0 * 256 +
          (generateCANData initState sampleDraw205).2.data.getD 1 0 ≤ 3000) := by
  refine ⟨by decide, by decide, ?_⟩
  intro hcon
  have h0 : (generateCANData initState sampleDraw205).2.data.getD 0 0 = 9 := by
    decide
  have h1 : (generateCANData initState sampleDraw205).2.data.getD 1 0 = 0 := by
    decide
  rw [h0, h1] at hcon
  omega

/-- C7 (amended): in every normal record from a single-byte
range-fluctuation identifier the leading payload byte lies within that
identifier's configured `[min, max]`; for the two-byte identifier 0x205,
because the high and low bytes come from two independent draws in
`[2500, 3000]`, the guaranteed bounds are: high byte in `[9, 11]`, low
byte in `[0, 255]`, and the reconstructed value `(byte0 << 8) | byte1` in
`[2304, 3071]` (not `[2500, 3000]`). -/
theorem c7_range_fluctuation_amended (s : GenState) (d : Draw)
    (h : (generateCANData s d).2.flag = "R") :
    ((generateCANData s d).2.canID = 0x200 →
      80 ≤ (generateCANData s d).2.data.getD 0 0 ∧
        (generateCANData s d).2.data.getD 0 0 ≤ 100) ∧
    ((generateCANData s d).2.canID = 0x201 →
      60 ≤ (generateCANData s d).2.data.getD 0 0 ∧
        (generateCANData s d).2.data.getD 0 0 ≤ 90) ∧
    ((generateCANData s d).2.canID = 0x202 →
      90 ≤ (generateCANData s d).2.data.getD 0 0 ∧
        (generateCANData s d).2.data.getD 0 0 ≤ 100) ∧
    ((generateCANData s d).2.canID = 0x203 →
      60 ≤ (generateCANData s d).2.data.getD 0 0 ∧
        (generateCANData s d).2.data.getD 0 0 ≤ 80) ∧
    ((generateCANData s d).2.canID = 0x204 →
      40 ≤ (generateCANData s d).2.data.getD 0 0 ∧
        (generateCANData s d).2.data.getD 0 0 ≤ 60) ∧
    ((generateCANData s d).2.canID = 0x205 →
      9 ≤ (generateCANData s d).2.data.getD 0 0 ∧
      (generateCANData s d).2.data.getD 0 0 ≤ 11 ∧
      (generateCANData s d).2.data.getD 1 0 ≤ 255 ∧
      2304 ≤ (generateCANData s d).2.data.getD 0 0 * 256 +
        (generateCANData s d).2.data.getD 1 0 ∧
      (generateCANData s d).2.data.getD 0 0 * 256 +
        (generateCANData s d).2.data.getD 1 0 ≤ 3071) := by
  obtain ⟨hid, hdata⟩ := generateCANData_R s d h
  rw [hid, hdata]
  have hv := d.keyIdx.isLt
  rcases d with ⟨coin, injId, injData, ⟨v, hv8⟩, tog, flA, flB⟩
  simp only at hv ⊢
  interval_cases v
  · simp [dbcKeys, DBC, List.lookup]
  · simp [dbcKeys, DBC, List.lookup]
  · have := fluctuate_byte_mem 80 100 (by omega) (by omega) (flA 20)
    simp [dbcKeys, DBC, List.lookup]
    omega
  · have := fluctuate_byte_mem 60 90 (by omega) (by omega) (flA 30)
    simp [dbcKeys, DBC, List.lookup]
    omega
  · have := fluctuate_byte_mem 90 100 (by omega) (by omega) (flA 10)
    simp [dbcKeys, DBC, List.lookup]
    omega
  · have := fluctuate_byte_mem 60 80 (by omega) (by omega) (flA 20)
    simp [dbcKeys, DBC, List.lookup]
    omega
  · have := fluctuate_byte_mem 40 60 (by omega) (by omega) (flA 20)
    simp [dbcKeys, DBC, List.lookup]
    omega
  · have hh := fluct205_high (flA 500)
    have hl := fluct205_low (flB 500)
    simp [dbcKeys, DBC, List.lookup]
    omega

/-- Witness for the amended C7 at the 0x205 counterexample draw. -/
theorem c7_range_fluctuation_amended_witness :
    ((generateCANData initState sampleDraw205).2.canID = 0x200 →
      80 ≤ (generateCANData initState sampleDraw205).2.data.getD 0 0 ∧
        (generateCANData initState sampleDraw205).2.data.getD 0 0 ≤ 100) ∧
    ((generateCANData initState sampleDraw205).2.canID = 0x201 →
      60 ≤ (generateCANData initState sampleDraw205).2.data.getD 0 0 ∧
        (generateCANData initState sampleDraw205).2.data.getD 0 0 ≤ 90) ∧
    ((generateCANData initState sampleDraw205).2.canID = 0x202 →
      90 ≤ (generateCANData initState sampleDraw205).2.data.getD 0 0 ∧
        (generateCANData initState sampleDraw205).2.data.getD 0 0 ≤ 100) ∧
    ((generateCANData initState sampleDraw205).2.canID = 0x203 →
      60 ≤ (generateCANData initState sampleDraw205).2.data.getD 0 0 ∧
        (generateCANData initState sampleDraw205).2.data.getD 0 0 ≤ 80) ∧
    ((generateCANData initState sampleDraw205).2.canID = 0x204 →
      40 ≤ (generateCANData initState sampleDraw205).2.data.getD 0 0 ∧
        (generateCANData initState sampleDraw205).2.data.getD 0 0 ≤ 60) ∧
    ((generateCANData initState sampleDraw205).2.canID = 0x205 →
      9 ≤ (generateCANData initState sampleDraw205).2.data.getD 0 0 ∧
      (generateCANData initState sampleDraw205).2.data.getD 0 0 ≤ 11 ∧
      (generateCANData initState sampleDraw205).2.data.getD 1 0 ≤ 255 ∧
      2304 ≤ (generateCANData initState sampleDraw205).2.data.getD 0 0 * 256 +
        (generateCANData initState sampleDraw205).2.data.getD 1 0 ∧
      (generateCANData initState sampleDraw205).2.data.getD 0 0 * 256 +
        (generateCANData initState sampleDraw205).2.data.getD 1 0 ≤ 3071) :=
  c7_range_fluctuation_amended initState sampleDraw205 (by decide)

/-- C8: Every normal record from a toggle-type identifier (0x100 or 0x101)
has leading payload byte `toggleOnOff` of the current call's own coin,
which is 1 exactly when that coin favors "on" and is always 0 or 1. -/
theorem c8_toggle_leading_byte (s : GenState) (d : Draw)
    (h : (generateCANData s d).2.flag = "R")
    (hid : (generateCANData s d).2.canID = 0x100 ∨
      (generateCANData s d).2.canID = 0x101) :
    (generateCANData s d).2.data.getD 0 0 = toggleOnOff d.toggle ∧
    toggleOnOff d.toggle = (if d.toggle then 1 else 0) ∧
    ((generateCANData s d).2.data.getD 0 0 = 0 ∨
      (generateCANData s d).2.data.getD 0 0 = 1) := by
  obtain ⟨hcan, hdata⟩ := generateCANData_R s d h
  rw [hcan] at hid
  rw [hdata]
  have hv := d.keyIdx.isLt
  rcases d with ⟨coin, injId, injData, ⟨v, hv8⟩, tog, flA, flB⟩
  simp only at hv hid ⊢
  interval_cases v <;>
    simp [dbcKeys, DBC, List.lookup, toggleOnOff] at hid ⊢ <;>
    cases tog <;> simp

/-- Witness for C8 at the zero state and a draw selecting key 0x100. -/
theorem c8_toggle_leading_byte_witness :
    (generateCANData initState sampleDrawR).2.data.getD 0 0 =
      toggleOnOff sampleDrawR.toggle ∧
    toggleOnOff sampleDrawR.toggle = (if sampleDrawR.toggle then 1 else 0) ∧
    ((generateCANData initState sampleDrawR).2.data.getD 0 0 = 0 ∨
      (generateCANData initState sampleDrawR).2.data.getD 0 0 = 1) :=
  c8_toggle_leading_byte initState sampleDrawR (by decide) (by decide)

/-- Decimal digits of a natural number, most significant first (the digit
sequence `fmt`'s `%d` verb prints). -/
def natDecimal (n : Nat) : List Nat :=
  if h : n < 10 then [n]
  else natDecimal (n / 10) ++ [n % 10]
decreasing_by exact Nat.div_lt_self (by omega) (by omega)

/-- The character printed for a decimal digit. -/
def digitChar (d : Nat) : Char := Char.ofNat (48 + d)

/-- Decimal rendering of a natural number (`fmt` verb `%d` on `uint`). -/
def fmtNat (n : Nat) : String := ((natDecimal n).map digitChar).asString

/-- Decimal rendering of an integer (`fmt` verb `%d` on `int64`). -/
def fmtInt (i : Int) : String :=
  if i < 0 then "-" ++ fmtNat i.natAbs else fmtNat i.toNat

/-- Zero-padding to width 6 (`fmt` verb `%06d`, as used on the nonnegative
microsecond remainder). -/
def fmt06d (i : Int) : String :=
  let s := fmtInt i
  if s.length < 6 then (List.replicate (6 - s.length) '0').asString ++ s else s

/-- A wall-clock sample as Go's `time.Time` stores it: whole seconds since
the Unix epoch and a nanosecond remainder in `[0, 1e9)` (the bound is a
`time.Time` invariant, carried as a hypothesis where needed). -/
structure GoTime where
  sec : Int
  nsec : Nat

/-- Go's `Time.Unix()`: whole seconds since the epoch. -/
def GoTime.Unix (t : GoTime) : Int := t.sec

/-- Go's `Time.UnixMicro()`: `sec * 1e6 + nsec / 1e3`. -/
def GoTime.UnixMicro (t : GoTime) : Int := t.sec * 1000000 + (t.nsec / 1000 : Nat)

/-- Function to format timestamp as UNIX time with microsecond precision
(src/main.go lines 132-137), over the single wall-clock sample `now`. -/
def formatTimestamp (now : GoTime) : String :=
  let seconds := now.Unix
  let microseconds := now.UnixMicro - seconds * 1000000
  fmtInt seconds ++ "." ++ fmt06d microseconds

/-- Every digit produced by `natDecimal` is below 10. -/
lemma natDecimal_digits_lt (n : Nat) : ∀ x ∈ natDecimal n, x < 10 := by
  induction n using Nat.strong_induction_on with
  | _ n ih =>
    intro x hx
    unfold natDecimal at hx
    by_cases h : n < 10
    · rw [dif_pos h] at hx
      simp at hx
      omega
    · rw [dif_neg h] at hx
      rcases List.mem_append.mp hx with h1 | h2
      · exact ih (n / 10) (Nat.div_lt_self (by omega) (by omega)) x h1
      · simp at h2
        omega

/-- A natural below `10 ^ (k + 1)` has at most `k + 1` decimal digits. -/
lemma natDecimal_length_le : ∀ k n : Nat, n < 10 ^ (k + 1) →
    (natDecimal n).length ≤ k + 1 := by
  intro k
  induction k with
  | zero =>
    intro n hn
    unfold natDecimal
    rw [dif_pos (by omega)]
    simp
  | succ k ih =>
    intro n hn
    unfold natDecimal
    by_cases h : n < 10
    · rw [dif_pos h]; simp
    · rw [dif_neg h]
      have hdiv : n / 10 < 10 ^ (k + 1) := by
        rw [Nat.div_lt_iff_lt_mul (by omega)]
        calc n < 10 ^ (k + 1 + 1) := hn
        _ = 10 ^ (k + 1) * 10 := by ring
      have := ih (n / 10) hdiv
      simp only [List.length_append, List.length_cons, List.length_nil]
      omega

/-- The length of a string made from a character list is the list length. -/
lemma asString_length (l : List Char) : l.asString.length = l.length := rfl

/-- String concatenation adds lengths. -/
lemma string_append_length (a b : String) :
    (a ++ b).length = a.length + b.length := by
  cases a with
  | mk da =>
    cases b with
    | mk db =>
      show (da ++ db).length = da.length + db.length
      exact List.length_append da db

/-- `digitChar` of a digit below 10 is an ASCII digit character. -/
lemma digitChar_isDigit (x : Nat) (hx : x < 10) : (digitChar x).isDigit := by
  interval_cases x <;> decide

/-- `fmt06d` of a nonnegative value of at most six digits yields exactly
six characters, all decimal digits. -/
lemma fmt06d_spec (m : Nat) (hm : m ≤ 999999) :
    (fmt06d (m : Int)).length = 6 ∧
    ∀ c ∈ (fmt06d (m : Int)).data, c.isDigit := by
  have hfi : fmtInt (m : Int) = fmtNat m := by
    unfold fmtInt
    rw [if_neg (by omega), Int.toNat_natCast]
  have hlen : (fmtNat m).length = (natDecimal m).length := by
    simp [fmtNat, asString_length]
  have h6 : (fmtNat m).length ≤ 6 := by
    rw [hlen]
    exact natDecimal_length_le 5 m (by omega)
  have hdig : ∀ c ∈ (fmtNat m).data, c.isDigit := by
    intro c hc
    have : c ∈ (natDecimal m).map digitChar := hc
    obtain ⟨x, hx, hxc⟩ := List.mem_map.mp this
    rw [← hxc]
    exact digitChar_isDigit x (natDecimal_digits_lt m x hx)
  unfold fmt06d
  rw [hfi]
  by_cases hc : (fmtNat m).length < 6
  · rw [if_pos hc]
    constructor
    · rw [string_append_length, asString_length, List.length_replicate]
      omega
    · intro c hcmem
      have : c ∈ List.replicate (6 - (fmtNat m).length) '0' ++ (fmtNat m).data :=
        hcmem
      rcases List.mem_append.mp this with h1 | h2
      · rw [List.eq_of_mem_replicate h1]
        decide
      · exact hdig c h2
  · rw [if_neg hc]
    exact ⟨by omega, hdig⟩

/-- C9: `formatTimestamp` returns the whole seconds since the Unix epoch,
a decimal point, and an exactly-6-digit zero-padded microsecond fraction;
both components come from the same single wall-clock sample `t`, and the
fractional component `t.nsec / 1000` is an integer in `[0, 999999]`. -/
theorem c9_format_timestamp (t : GoTime) (h : t.nsec < 1000000000) :
    formatTimestamp t = fmtInt t.Unix ++ "." ++ fmt06d ((t.nsec / 1000 : Nat) : Int) ∧
    t.nsec / 1000 ≤ 999999 ∧
    (fmt06d ((t.nsec / 1000 : Nat) : Int)).length = 6 ∧
    ∀ c ∈ (fmt06d ((t.nsec / 1000 : Nat) : Int)).data, c.isDigit := by
  have hmic : t.UnixMicro - t.Unix * 1000000 = ((t.nsec / 1000 : Nat) : Int) := by
    unfold GoTime.UnixMicro GoTime.Unix
    omega
  have hbound : t.nsec / 1000 ≤ 999999 := by omega
  obtain ⟨hl, hd⟩ := fmt06d_spec (t.nsec / 1000) hbound
  refine ⟨?_, hbound, hl, hd⟩
  have hdef : formatTimestamp t =
      fmtInt t.Unix ++ "." ++ fmt06d (t.UnixMicro - t.Unix * 1000000) := rfl
  rw [hdef, hmic]

/-- Witness for C9 at the concrete sample `5 s + 42123456 ns`. -/
theorem c9_format_timestamp_witness :
    formatTimestamp ⟨5, 42123456⟩ =
      fmtInt (GoTime.Unix ⟨5, 42123456⟩) ++ "." ++
        fmt06d ((42123456 / 1000 : Nat) : Int) ∧
    42123456 / 1000 ≤ 999999 ∧
    (fmt06d ((42123456 / 1000 : Nat) : Int)).length = 6 ∧
    ∀ c ∈ (fmt06d ((42123456 / 1000 : Nat) : Int)).data, c.isDigit :=
  c9_format_timestamp ⟨5, 42123456⟩ (by decide)

/-- Hexadecimal digits of a natural number, most significant first. -/
def natHex (n : Nat) : List Nat :=
  if h : n < 16 then [n]
  else natHex (n / 16) ++ [n % 16]
decreasing_by exact Nat.div_lt_self (by omega) (by omega)

/-- The character printed for an uppercase hexadecimal digit. -/
def hexDigitChar (d : Nat) : Char :=
  if d < 10 then Char.ofNat (48 + d) else Char.ofNat (55 + d)

/-- Uppercase hexadecimal rendering without prefix or padding
(`fmt` verb `%X`, as used on the CAN ID). -/
def fmtHexX (n : Nat) : String := ((natHex n).map hexDigitChar).asString

/-- Two-digit zero-padded uppercase hexadecimal (`fmt` verb `%02X`, as
used on each payload byte). -/
def fmt02X (b : Nat) : String :=
  let s := fmtHexX b
  if s.length < 2 then (List.replicate (2 - s.length) '0').asString ++ s else s

/-- `strconv.Itoa`, as used on the fixed DLC column. -/
def Itoa (n : Nat) : String := fmtNat n

/-- One CSV row as built in the loop of `generateDataset`
(src/main.go lines 109-120): timestamp, CAN ID in uppercase hex without
prefix, DLC in decimal, the 8 payload bytes as two-digit uppercase hex,
then the label. -/
def csvRecord (t : GoTime) (r : CANRecord) : List String :=
  [formatTimestamp t, fmtHexX r.canID, Itoa DataLength] ++
    r.data.map fmt02X ++ [r.flag]

/-- The write loop of `generateDataset` (src/main.go lines 105-126):
`cnt` remaining iterations, current loop index `i`, current counter state
`s`.  `writeErr i` is the outcome the CSV writer reports for row `i`
(`none` = success); a failing write aborts immediately with Go's wrapped
error message and the failing row is not part of the output. -/
def genRows (draws : Nat → Draw) (times : Nat → GoTime)
    (writeErr : Nat → Option String) (s : GenState) (i cnt : Nat) :
    List (List String) × Option String :=
  match cnt with
  | 0 => ([], none)
  | Nat.succ cnt =>
    let (s', r) := generateCANData s (draws i)
    let record := csvRecord (times i) r
    match writeErr i with
    | some e => ([], some ("could not write record: " ++ e))
    | none =>
      let (rest, err) := genRows draws times writeErr s' (i + 1) cnt
      (record :: rest, err)

/-- Function to generate and save dataset as a CSV file
(src/main.go lines 82-129).  `createErr` is the outcome of `os.Create`
(`none` = success); on failure the function returns Go's wrapped error at
once and writes nothing.  The result is the list of rows successfully
written and the error returned, if any.  (The progress bar is cosmetic
and not modelled.) -/
def generateDataset (draws : Nat → Draw) (times : Nat → GoTime)
    (createErr : Option String) (writeErr : Nat → Option String) :
    List (List String) × Option String :=
  match createErr with
  | some e => ([], some ("could not create file: " ++ e))
  | none => genRows draws times writeErr initState 0 TotalRecords

/-- The entry point (src/main.go lines 139-148): runs `generateDataset`
and prints either the error or the success message.  The result is the
written rows, the message printed to standard output, and the process
exit status — which is always 0, because the Go `main` returns normally
in both branches and never calls `os.Exit`. -/
def main (draws : Nat → Draw) (times : Nat → GoTime)
    (createErr : Option String) (writeErr : Nat → Option String) :
    List (List String) × String × Nat :=
  let (rows, err) := generateDataset draws times createErr writeErr
  match err with
  | some e => (rows, "Error generating dataset: " ++ e ++ "\n", 0)
  | none =>
    (rows, "\nDataset generated successfully and saved to Fuzzy_dataset.csv\n", 0)

/-- With no write failures, the loop writes exactly `cnt` rows and
reports no error. -/
lemma genRows_all_ok (draws : Nat → Draw) (times : Nat → GoTime)
    (writeErr : Nat → Option String) (hok : ∀ i, writeErr i = none) :
    ∀ cnt s i, (genRows draws times writeErr s i cnt).2 = none ∧
      (genRows draws times writeErr s i cnt).1.length = cnt := by
  intro cnt
  induction cnt with
  | zero => intro s i; exact ⟨rfl, rfl⟩
  | succ cnt ih =>
    intro s i
    obtain ⟨ih1, ih2⟩ := ih (generateCANData s (draws i)).1 (i + 1)
    simp only [genRows, hok i, List.length_cons]
    exact ⟨ih1, by omega⟩

/-- If the first write failure happens at relative position `k < cnt`,
the loop writes exactly the `k` earlier rows and aborts with the wrapped
write error. -/
lemma genRows_first_fail (draws : Nat → Draw) (times : Nat → GoTime)
    (writeErr : Nat → Option String) (e : String) :
    ∀ cnt k s i, k < cnt → writeErr (i + k) = some e →
      (∀ j, j < k → writeErr (i + j) = none) →
      (genRows draws times writeErr s i cnt).1.length = k ∧
      (genRows draws times writeErr s i cnt).2 =
        some ("could not write record: " ++ e) := by
  intro cnt
  induction cnt with
  | zero => intro k s i hk; omega
  | succ cnt ih =>
    intro k s i hk hfail hok
    match k with
    | 0 =>
      have h0 : writeErr i = some e := by simpa using hfail
      simp only [genRows, h0]
      exact ⟨by trivial, by trivial⟩
    | Nat.succ k =>
      have h0 : writeErr i = none := by simpa using hok 0 (by omega)
      have hfail' : writeErr (i + 1 + k) = some e := by
        have : i + 1 + k = i + (k + 1) := by omega
        rw [this]; exact hfail
      have hok' : ∀ j, j < k → writeErr (i + 1 + j) = none := by
        intro j hj
        have : i + 1 + j = i + (j + 1) := by omega
        rw [this]; exact hok (j + 1) (by omega)
      obtain ⟨ih1, ih2⟩ :=
        ih k (generateCANData s (draws i)).1 (i + 1) (by omega) hfail' hok'
      simp only [genRows, h0, List.length_cons]
      exact ⟨by omega, ih2⟩

/-- C10 (amended): on output-file-creation failure nothing is written and
the wrapped creation error is printed; with no write failures all
`TotalRecords` rows are written and the success message is printed; on a
first per-row write failure at row `k` exactly the `k` earlier rows are
written and the wrapped write error is printed.  In every case the
process exit status is 0 — `main` prints the error but returns normally
and never calls `os.Exit`, so the status is never nonzero. -/
theorem c10_error_handling_amended (draws : Nat → Draw) (times : Nat → GoTime)
    (writeErr : Nat → Option String) (e : String) :
    ((main draws times (some e) writeErr).1 = [] ∧
      (main draws times (some e) writeErr).2.1 =
        "Error generating dataset: " ++ ("could not create file: " ++ e) ++ "\n" ∧
      (main draws times (some e) writeErr).2.2 = 0) ∧
    ((∀ i, writeErr i = none) →
      (main draws times none writeErr).1.length = TotalRecords ∧
      (main draws times none writeErr).2.1 =
        "\nDataset generated successfully and saved to Fuzzy_dataset.csv\n" ∧
      (main draws times none writeErr).2.2 = 0) ∧
    (∀ k, k < TotalRecords → writeErr k = some e →
      (∀ j, j < k → writeErr j = none) →
      (main draws times none writeErr).1.length = k ∧
      (main draws times none writeErr).2.1 =
        "Error generating dataset: " ++ ("could not write record: " ++ e) ++ "\n" ∧
      (main draws times none writeErr).2.2 = 0) := by
  refine ⟨⟨rfl, rfl, rfl⟩, ?_, ?_⟩
  · intro hok
    obtain ⟨h1, h2⟩ :=
      genRows_all_ok draws times writeErr hok TotalRecords initState 0
    simp only [main, generateDataset, h1, h2]
    exact ⟨by trivial, by trivial, by trivial⟩
  · intro k hk hfail hok
    obtain ⟨h1, h2⟩ := genRows_first_fail draws times writeErr e
      TotalRecords k initState 0 hk (by simpa using hfail) (by simpa using hok)
    simp only [main, generateDataset, h1, h2]
    exact ⟨by trivial, by trivial, by trivial⟩

/-- Witness for the amended C10: the creation-failure case at a concrete
input, the all-good case with every write succeeding, and the write-
failure case with the very first write failing. -/
theorem c10_error_handling_amended_witness :
    ((main (fun _ => sampleDraw) (fun _ => ⟨0, 0⟩) (some "disk full")
        (fun _ => none)).1 = [] ∧
      (main (fun _ => sampleDraw) (fun _ => ⟨0, 0⟩) (some "disk full")
        (fun _ => none)).2.1 =
        "Error generating dataset: " ++
          ("could not create file: " ++ "disk full") ++ "\n" ∧
      (main (fun _ => sampleDraw) (fun _ => ⟨0, 0⟩) (some "disk full")
        (fun _ => none)).2.2 = 0) ∧
    ((main (fun _ => sampleDraw) (fun _ => ⟨0, 0⟩) none
        (fun _ => none)).1.length = TotalRecords ∧
      (main (fun _ => sampleDraw) (fun _ => ⟨0, 0⟩) none
        (fun _ => none)).2.1 =
        "\nDataset generated successfully and saved to Fuzzy_dataset.csv\n" ∧
      (main (fun _ => sampleDraw) (fun _ => ⟨0, 0⟩) none
        (fun _ => none)).2.2 = 0) ∧
    ((main (fun _ => sampleDraw) (fun _ => ⟨0, 0⟩) none
        (fun _ => some "pipe closed")).1.length = 0 ∧
      (main (fun _ => sampleDraw) (fun _ => ⟨0, 0⟩) none
        (fun _ => some "pipe closed")).2.1 =
        "Error generating dataset: " ++
          ("could not write record: " ++ "pipe closed") ++ "\n" ∧
      (main (fun _ => sampleDraw) (fun _ => ⟨0, 0⟩) none
        (fun _ => some "pipe closed")).2.2 = 0) := by
  refine ⟨(c10_error_handling_amended (fun _ => sampleDraw) (fun _ => ⟨0, 0⟩)
      (fun _ => none) "disk full").1, ?_, ?_⟩
  · exact (c10_error_handling_amended (fun _ => sampleDraw) (fun _ => ⟨0, 0⟩)
      (fun _ => none) "disk full").2.1 (fun _ => rfl)
  · exact (c10_error_handling_amended (fun _ => sampleDraw) (fun _ => ⟨0, 0⟩)
      (fun _ => some "pipe closed") "pipe closed").2.2 0 (by decide) rfl
      (fun j hj => absurd hj (Nat.not_lt_zero j))

/-- C10 counterexample to the nonzero-exit-status part of the claim: on a
concrete file-creation failure the error message is printed, yet the
process exit status is 0, not nonzero, because `main` never calls
`os.Exit`. -/
theorem c10_exit_status_counterexample :
    (main (fun _ => sampleDrawR) (fun _ => ⟨0, 0⟩) (some "permission denied")
        (fun _ => none)).2.1 =
      "Error generating dataset: " ++
        ("could not create file: " ++ "permission denied") ++ "\n" ∧
    ¬ (main (fun _ => sampleDrawR) (fun _ => ⟨0, 0⟩) (some "permission denied")
        (fun _ => none)).2.2 ≠ 0 := by
  exact ⟨rfl, fun hne => hne rfl⟩

end CanFuzzy
